import Mathlib

/-!
Verification of the pane-tree / reflow / dialog-stack core of the
neomutt window layer.

The repository contains two structural variants of the window code:

- the flat variant (src/mutt_window.c with an older struct MuttWindow),
  whose reflow directly recomputes the geometry of the named global
  windows (Status, Help, Message, Index, Sidebar);

- the tree variant (src/unnamed/part_001 together with src/mutt_window.h
  and the dialog operations in src/unnamed/part_000), whose reflow
  delegates to a recursive engine window_reflow declared in reflow.h.
  The file reflow.c itself is not among the sources, so the engine is
  modelled from the specification (section 4.2 of spec.md); every
  definition modelled that way carries a doc comment saying so.

Machine integers: the C fields are int and short; none of the verified
claims involve wrap-around behaviour, so they are embedded as Int.
-/

/-- Orientation of a window: the axis along which its children are
stacked (mutt_window.h, enum MuttWindowOrientation). -/
inductive MuttWindowOrientation where
  | vertical
  | horizontal
deriving DecidableEq

/-- Size policy of a window (mutt_window.h, enum MuttWindowSize). -/
inductive MuttWindowSize where
  | fixed
  | maximise
  | minimise
deriving DecidableEq

/-- Sentinel for an unlimited size request (mutt_window.h). -/
def MUTT_WIN_SIZE_UNLIMITED : Int := -1

/-- Current or previous state of a window (mutt_window.h, struct
WindowState): visibility plus the four computed geometry fields. -/
structure WindowState where
  visible : Bool
  rows : Int
  cols : Int
  row_offset : Int
  col_offset : Int
deriving DecidableEq

/-- The four computed geometry fields of a window state, without the
visibility flag; used to express that an operation leaves geometry
untouched. -/
structure Geom where
  rows : Int
  cols : Int
  row_offset : Int
  col_offset : Int
deriving DecidableEq

/-- Projection of a window state onto its geometry fields. -/
def WindowState.geom (s : WindowState) : Geom :=
  { rows := s.rows, cols := s.cols,
    row_offset := s.row_offset, col_offset := s.col_offset }

/-- Scalar fields of struct MuttWindow (mutt_window.h, tree variant).
The diagnostic name label is omitted (the spec gives it no semantic
role); the parent back-pointer is abstracted to its nullness, which is
all the verified claims inspect; the TAILQ entries field is implicit in
the child list. -/
structure MWinData where
  req_rows : Int
  req_cols : Int
  state : WindowState
  old : WindowState
  orient : MuttWindowOrientation
  size : MuttWindowSize
  hasParent : Bool
deriving DecidableEq

/-- A window of the tree variant: its scalar data and its ordered,
exclusively owned children. -/
inductive MuttWindow where
  | node (data : MWinData) (children : List MuttWindow)

/-- Scalar data of a window. -/
def MuttWindow.data : MuttWindow → MWinData
  | .node d _ => d

/-- Child list of a window. -/
def MuttWindow.children : MuttWindow → List MuttWindow
  | .node _ cs => cs

/-- Visibility flag of a window. -/
def MuttWindow.visible (w : MuttWindow) : Bool :=
  w.data.state.visible

/-- Size policy of a window. -/
def MuttWindow.size (w : MuttWindow) : MuttWindowSize :=
  w.data.size

/-- Orientation of a window. -/
def MuttWindow.orient (w : MuttWindow) : MuttWindowOrientation :=
  w.data.orient

/-- mutt_window_wrap_cols (src/mutt_window.c:405-413 and
src/unnamed/part_001:396-404, identical bodies): the wrap column for a
given screen width and signed wrap configuration value. -/
def mutt_window_wrap_cols (width wrap : Int) : Int :=
  if wrap < 0 then
    if width > -wrap then width + wrap else width
  else if wrap ≠ 0 then
    if wrap < width then wrap else width
  else
    width

namespace Flat

/-- A window of the flat variant (the older struct MuttWindow of
src/unnamed/part_002): the four geometry fields live directly in the
struct next to the visibility flag. -/
structure FlatWin where
  rows : Int
  cols : Int
  row_offset : Int
  col_offset : Int
  visible : Bool
deriving DecidableEq

/-- Ambient configuration read by the flat reflow functions: terminal
size (LINES, COLS), the C_StatusOnTop, C_Help, C_SidebarVisible,
C_SidebarOnRight and C_SidebarWidth options, the USE_SIDEBAR compile
flag and the OptNoCurses flag. -/
structure FlatConfig where
  lines : Int
  cols : Int
  statusOnTop : Bool
  help : Bool
  useSidebar : Bool
  sidebarVisible : Bool
  sidebarOnRight : Bool
  sidebarWidth : Int
  optNoCurses : Bool
deriving DecidableEq

/-- The named global windows touched by the flat reflow functions
(src/mutt_window.c:41-49); the Pager windows are never written by them
and are omitted. -/
structure FlatState where
  status : FlatWin
  help : FlatWin
  message : FlatWin
  index : FlatWin
  sidebar : FlatWin
deriving DecidableEq

/-- mutt_window_copy_size (src/mutt_window.c:304-313): copy the four
geometry fields of one window into another, leaving visibility alone. -/
def mutt_window_copy_size (src dst : FlatWin) : FlatWin :=
  { dst with rows := src.rows, cols := src.cols,
             row_offset := src.row_offset, col_offset := src.col_offset }

/-- mutt_window_reflow (src/mutt_window.c:318-366), the flat variant:
recompute the geometry of the Status, Help, Message, Index and Sidebar
windows from the terminal size and the configuration.  The menu
redraw-flag calls at the end touch state outside this model. -/
def mutt_window_reflow (cfg : FlatConfig) (s : FlatState) : FlatState :=
  if cfg.optNoCurses then s
  else
    let status : FlatWin :=
      { s.status with rows := 1, cols := cfg.cols,
                      row_offset := if cfg.statusOnTop then 0 else cfg.lines - 2,
                      col_offset := 0 }
    let help0 := mutt_window_copy_size status s.help
    let help :=
      if cfg.help then
        { help0 with row_offset := if cfg.statusOnTop then cfg.lines - 2 else 0 }
      else
        { help0 with rows := 0 }
    let message :=
      { mutt_window_copy_size status s.message with row_offset := cfg.lines - 1 }
    let index0 := mutt_window_copy_size status s.index
    let index1 :=
      { index0 with
          rows := max (cfg.lines - status.rows - help.rows - message.rows) 0,
          row_offset := if cfg.statusOnTop then status.rows else help.rows }
    if cfg.useSidebar && cfg.sidebarVisible then
      let sidebar0 := mutt_window_copy_size index1 s.sidebar
      let sidebar1 := { sidebar0 with cols := cfg.sidebarWidth }
      let index2 := { index1 with cols := index1.cols - cfg.sidebarWidth }
      if cfg.sidebarOnRight then
        { status := status, help := help, message := message, index := index2,
          sidebar := { sidebar1 with col_offset := cfg.cols - cfg.sidebarWidth } }
      else
        { status := status, help := help, message := message,
          index := { index2 with col_offset := index2.col_offset + cfg.sidebarWidth },
          sidebar := sidebar1 }
    else
      { status := status, help := help, message := message, index := index1,
        sidebar := s.sidebar }

/-- mutt_window_reflow_message_rows (src/mutt_window.c:374-395), the
flat variant: directly overwrite the row extents and row offsets of the
affected windows to make room for a multi-line message, without running
the full reflow.  The menu redraw-flag call at the end touches state
outside this model. -/
def mutt_window_reflow_message_rows (cfg : FlatConfig) (mw_rows : Int)
    (s : FlatState) : FlatState :=
  let message := { s.message with rows := mw_rows, row_offset := cfg.lines - mw_rows }
  let status :=
    { s.status with
        row_offset := if cfg.statusOnTop then 0 else cfg.lines - mw_rows - 1 }
  let help :=
    if cfg.help then
      { s.help with row_offset := if cfg.statusOnTop then cfg.lines - mw_rows - 1 else 0 }
    else
      s.help
  let index :=
    { s.index with
        rows := max (cfg.lines - status.rows - help.rows - message.rows) 0 }
  let sidebar :=
    if cfg.useSidebar && cfg.sidebarVisible then
      { s.sidebar with rows := index.rows }
    else
      s.sidebar
  { status := status, help := help, message := message, index := index,
    sidebar := sidebar }

/-- The size policy assigned to the Index window by mutt_window_init
(src/mutt_window.c:215-216): it is the Maximise pane of the flat
layout. -/
def indexWindowSize : MuttWindowSize := .maximise

/-- Cross-axis bookkeeping of a flat layout state: the cols, col_offset
and visible fields of the five windows, which a row-only adjustment must
leave untouched. -/
def colsView (s : FlatState) : List (Int × Int × Bool) :=
  [ (s.status.cols, s.status.col_offset, s.status.visible),
    (s.help.cols, s.help.col_offset, s.help.visible),
    (s.message.cols, s.message.col_offset, s.message.visible),
    (s.index.cols, s.index.col_offset, s.index.visible),
    (s.sidebar.cols, s.sidebar.col_offset, s.sidebar.visible) ]

end Flat

/-- mutt_window_new (src/unnamed/part_001:62-74): allocate a zeroed
window (mutt_mem_calloc), then set the orientation, the size policy, the
requested sizes and the visibility flag.  All other fields keep their
calloc zero values. -/
def mutt_window_new (orient : MuttWindowOrientation) (size : MuttWindowSize)
    (rows cols : Int) : MuttWindow :=
  .node
    { req_rows := rows, req_cols := cols,
      state := { visible := true, rows := 0, cols := 0,
                 row_offset := 0, col_offset := 0 },
      old := { visible := false, rows := 0, cols := 0,
               row_offset := 0, col_offset := 0 },
      orient := orient, size := size, hasParent := false }
    []

/-- Set the visibility flag of a window, as the statements
last.state.visible = b of src/unnamed/part_000 do. -/
def setWinVisible (w : MuttWindow) (v : Bool) : MuttWindow :=
  match w with
  | .node d cs => .node { d with state := { d.state with visible := v } } cs

/-- Record that a window has acquired a parent, as the statement
child.parent = parent of mutt_window_add_child does; only the nullness
of the pointer is tracked. -/
def setHasParent (w : MuttWindow) : MuttWindow :=
  match w with
  | .node d cs => .node { d with hasParent := true } cs

/-- mutt_window_add_child (src/unnamed/part_001:411-418): a null parent
or child is a no-op; otherwise the child is appended to the parent's
child list and its parent back-pointer is set.  The result is the
updated parent. -/
def mutt_window_add_child (parent child : Option MuttWindow) : Option MuttWindow :=
  match parent, child with
  | some p, some c =>
    some (match p with | .node d cs => .node d (cs ++ [setHasParent c]))
  | _, _ => parent

/-- mutt_window_free (src/unnamed/part_001:80-90): a null pointer (or a
pointer to null) is a no-op; otherwise the subtree is freed and the
pointer is nulled.  The model returns the pointer after the call. -/
def mutt_window_free : Option MuttWindow → Option MuttWindow
  | none => none
  | some _ => none

/-- mutt_window_move (src/unnamed/part_001:216-226): computes the
absolute cursor target from the pane offsets and the given relative
coordinates.  The source dereferences win with no null check, so a null
pane is modelled as none (the call faults), not as a defined no-op. -/
def mutt_window_move (win : Option MuttWindow) (row col : Int) : Option (Int × Int) :=
  match win with
  | none => none
  | some w => some (w.data.state.row_offset + row, w.data.state.col_offset + col)

/-- Apply f to the last element of a list, if any: the TAILQ_LAST
followed by a conditional field write of src/unnamed/part_000. -/
def markLast (f : α → α) : List α → List α
  | [] => []
  | [a] => [f a]
  | a :: b :: t => a :: markLast f (b :: t)

/-- dialog_push (src/unnamed/part_000:9-20): a null dialog or an absent
dialog container is a no-op; otherwise the container's last child, if
any, is marked invisible, and the dialog root is appended and marked
visible.  The container is the child list of MuttDialogWindow; an
absent container models a null MuttDialogWindow. -/
def dialog_push (dlg : Option MuttWindow) (container : Option (List MuttWindow)) :
    Option (List MuttWindow) :=
  match dlg, container with
  | some d, some l => some (markLast (setWinVisible · false) l ++ [setWinVisible d true])
  | _, _ => container

/-- dialog_pop (src/unnamed/part_000:22-37): an absent or empty
container is a no-op; otherwise the last child is marked invisible and
removed, and the new last child, if any, is marked visible.  The second
component is the detached dialog root, which the source does not free:
ownership reverts to the caller. -/
def dialog_pop : Option (List MuttWindow) → Option (List MuttWindow) × Option MuttWindow
  | none => (none, none)
  | some l =>
    match l.getLast? with
    | none => (some l, none)
    | some w => (some (markLast (setWinVisible · true) l.dropLast), some (setWinVisible w false))

/-- One user-visible operation on the dialog stack. -/
inductive DialogOp where
  | push (dlg : Option MuttWindow)
  | pop

/-- Run a sequence of dialog operations against a container state. -/
def runOps : List DialogOp → Option (List MuttWindow) → Option (List MuttWindow)
  | [], s => s
  | .push d :: rest, s => runOps rest (dialog_push d s)
  | .pop :: rest, s => runOps rest (dialog_pop s).1

mutual

/-- Current and previous geometry of every pane of a subtree, in
preorder; visibility flags are not part of this view. -/
def treeGeoms : MuttWindow → List (Geom × Geom)
  | .node d cs => (d.state.geom, d.old.geom) :: treeGeomsList cs

/-- Geometry view of a list of subtrees. -/
def treeGeomsList : List MuttWindow → List (Geom × Geom)
  | [] => []
  | c :: rest => treeGeoms c ++ treeGeomsList rest

end

/-- The axis perpendicular to the given stacking axis. -/
def otherOrient : MuttWindowOrientation → MuttWindowOrientation
  | .vertical => .horizontal
  | .horizontal => .vertical

/-- Extent of a window state along a stacking axis: rows for a vertical
parent, cols for a horizontal one (spec 4.2 step 1). -/
def extentOf (o : MuttWindowOrientation) (s : WindowState) : Int :=
  match o with
  | .vertical => s.rows
  | .horizontal => s.cols

/-- Offset of a window state along a stacking axis. -/
def offsetOf (o : MuttWindowOrientation) (s : WindowState) : Int :=
  match o with
  | .vertical => s.row_offset
  | .horizontal => s.col_offset

/-- Requested size of a window along a stacking axis. -/
def reqAlong (o : MuttWindowOrientation) (d : MWinData) : Int :=
  match o with
  | .vertical => d.req_rows
  | .horizontal => d.req_cols

mutual

/-- Modelled from the spec: the natural, bottom-up size of a pane along
the axis o (spec 4.2 step 2); part of the reflow engine window_reflow
(reflow.c), which is declared and called by the sources but not among
them.  A Fixed pane demands its clamped request (an unlimited Fixed
request has no intrinsic demand here; top-down it absorbs the
remainder), a Maximise pane demands nothing, and a Minimise pane
demands exactly what is needed to contain its visible children: their
sum when they stack along o, the largest of them when they stack across
o. -/
def natSize (o : MuttWindowOrientation) : MuttWindow → Int
  | .node d cs =>
    match d.size with
    | .fixed =>
        if reqAlong o d = MUTT_WIN_SIZE_UNLIMITED then 0 else max (reqAlong o d) 0
    | .maximise => 0
    | .minimise => if d.orient = o then natSizeSum o cs else natSizeMax o cs

/-- Modelled from the spec: total natural size of the visible panes of
a list, along the axis o. -/
def natSizeSum (o : MuttWindowOrientation) : List MuttWindow → Int
  | [] => 0
  | c :: rest => (if c.visible then natSize o c else 0) + natSizeSum o rest

/-- Modelled from the spec: largest natural size among the visible
panes of a list, along the axis o. -/
def natSizeMax (o : MuttWindowOrientation) : List MuttWindow → Int
  | [] => 0
  | c :: rest => max (if c.visible then natSize o c else 0) (natSizeMax o rest)

end

/-- Modelled from the spec: what a child consumes of its parent's
stacking extent before the remainder is shared, i.e. the Fixed or
Minimise demand (spec 4.2 step 2); Maximise children and unlimited
Fixed children consume from the remainder instead. -/
def demand (o : MuttWindowOrientation) (c : MuttWindow) : Int :=
  match c.size with
  | .fixed =>
      if reqAlong o c.data = MUTT_WIN_SIZE_UNLIMITED then 0 else max (reqAlong o c.data) 0
  | .minimise => natSize o c
  | .maximise => 0

/-- Modelled from the spec: total Fixed and Minimise demand of the
visible children of a list. -/
def demandTotal (o : MuttWindowOrientation) : List MuttWindow → Int
  | [] => 0
  | c :: rest => (if c.visible then demand o c else 0) + demandTotal o rest

/-- Modelled from the spec: number of visible Maximise children, among
which the remainder is shared. -/
def maximiseCount : List MuttWindow → Nat
  | [] => 0
  | c :: rest =>
      (if c.visible ∧ c.size = .maximise then 1 else 0) + maximiseCount rest

/-- Modelled from the spec: the share of the remainder r given to the
i-th of k Maximise siblings (0-based, in visitation order): an equal
split with the remainder of the division handed to the earlier
siblings, and never negative (spec 4.2 step 2 and spec 8, the
Maximise fair-share property). -/
def maxShare (r : Int) (k i : Nat) : Int :=
  if r ≤ 0 ∨ k = 0 then 0
  else ((r.toNat / k : Nat) : Int) + (if i < r.toNat % k then 1 else 0)

/-- Sum of the shares handed to km consecutive Maximise siblings
starting at index mi. -/
def shareTotal (r : Int) (k : Nat) : Nat → Nat → Int
  | _, 0 => 0
  | mi, km + 1 => maxShare r k mi + shareTotal r k (mi + 1) km

/-- Modelled from the spec: the state written into a visible child
during reflow: the allocated extent and cumulative offset along the
parent's stacking axis, the parent's full extent and offset across it
(spec 4.2 steps 3 and 4), and the child's own visibility flag. -/
def childState (o : MuttWindowOrientation) (pst : WindowState) (off ext : Int)
    (vis : Bool) : WindowState :=
  match o with
  | .vertical =>
      { visible := vis, rows := ext, cols := pst.cols,
        row_offset := off, col_offset := pst.col_offset }
  | .horizontal =>
      { visible := vis, rows := pst.rows, cols := ext,
        row_offset := pst.row_offset, col_offset := off }

/-- Modelled from the spec: an invisible child is skipped entirely, but
the visit still snapshots its current geometry into previous_geometry
(spec 4.2, edge cases). -/
def copyOld : MuttWindow → MuttWindow
  | .node d cs => .node { d with old := d.state } cs

/-- Modelled from the spec: the stacking-axis extent allocated to a
visible child, given the parent state pst, the precomputed remainder r
for the k Maximise siblings, the extent used so far and the index mi of
the next Maximise sibling: a Fixed child takes its clamped request (or,
when unlimited, everything still unused), a Minimise child takes its
natural size, a Maximise child takes its share of the remainder. -/
def allocExt (o : MuttWindowOrientation) (pst : WindowState) (r : Int) (k : Nat)
    (used : Int) (mi : Nat) (c : MuttWindow) : Int :=
  match c.size with
  | .fixed =>
      if reqAlong o c.data = MUTT_WIN_SIZE_UNLIMITED then
        max (extentOf o pst - used) 0
      else
        max (reqAlong o c.data) 0
  | .minimise => natSize o c
  | .maximise => maxShare r k mi

/-- How a child advances the Maximise index: by one if it is a Maximise
pane. -/
def miStep (c : MuttWindow) : Nat :=
  if c.size = .maximise then 1 else 0

mutual

/-- Modelled from the spec: the recursive reflow engine window_reflow
(reflow.c, absent from the sources; spec 4.2).  Entering a pane whose
own state has just been assigned, it snapshots the previous state,
installs the new one, and lays out the children: Fixed and Minimise
demands are summed first, the remainder is shared among the Maximise
children, offsets accumulate in child order, and the engine recurses
into each visible child. -/
def reflowInto (st : WindowState) : MuttWindow → MuttWindow
  | .node d cs =>
    .node { d with old := d.state, state := st }
      (reflowChildren d.orient st (extentOf d.orient st - demandTotal d.orient cs)
        (maximiseCount cs) 0 0 cs)

/-- Modelled from the spec: lay out a child list in visitation order,
carrying the extent already used and the index of the next Maximise
sibling; invisible children only get the previous-geometry snapshot and
advance nothing (spec 4.2 step 3). -/
def reflowChildren (o : MuttWindowOrientation) (pst : WindowState) (r : Int) (k : Nat)
    (used : Int) (mi : Nat) : List MuttWindow → List MuttWindow
  | [] => []
  | c :: rest =>
    if c.visible then
      reflowInto (childState o pst (offsetOf o pst + used) (allocExt o pst r k used mi c)
          c.visible) c
        :: reflowChildren o pst r k (used + allocExt o pst r k used mi c) (mi + miStep c) rest
    else
      copyOld c :: reflowChildren o pst r k used mi rest

end

/-- Modelled from the spec: reflow a pane whose own geometry has
already been set by the caller (the root, whose state holds the
terminal size). -/
def window_reflow (w : MuttWindow) : MuttWindow :=
  reflowInto w.data.state w

/-- mutt_window_reflow (src/unnamed/part_001:357-370), the tree
variant, restricted to the geometry core: the OptNoCurses guard and the
engine invocation.  The prep step rearranges the named global Index and
Pager windows, and the menu redraw flags and win_dump touch curses
state; both are outside this geometry model.  The source substitutes
RootWindow for a null win argument, so the model takes the window to
reflow directly. -/
def mutt_window_reflow (optNoCurses : Bool) (win : MuttWindow) : MuttWindow :=
  if optNoCurses then win else window_reflow win

/-- Write a new size into the state of a window, as the assignments
RootWindow.state.rows = rows and RootWindow.state.cols = cols of
mutt_window_set_root do. -/
def setStateSize (w : MuttWindow) (rows cols : Int) : MuttWindow :=
  match w with
  | .node d cs => .node { d with state := { d.state with rows := rows, cols := cols } } cs

/-- mutt_window_set_root (src/unnamed/part_001:444-467): a null root is
a no-op; otherwise each stored dimension is overwritten when it differs
from the argument, and a reflow of the root is triggered only when
something changed. -/
def mutt_window_set_root (optNoCurses : Bool) (rows cols : Int) :
    Option MuttWindow → Option MuttWindow
  | none => none
  | some root =>
    let changed := !(root.data.state.rows == rows) || !(root.data.state.cols == cols)
    let root2 := setStateSize root rows cols
    if changed then some (mutt_window_reflow optNoCurses root2) else some root2

/-- Apply f to the i-th element of a list, if it exists. -/
def modifyAt (f : α → α) : Nat → List α → List α
  | _, [] => []
  | 0, a :: t => f a :: t
  | n + 1, a :: t => a :: modifyAt f n t

/-- Write a new requested row count into a window, as the assignment
MuttMessageWindow.req_rows = mw_rows does. -/
def setReqRows (w : MuttWindow) (req : Int) : MuttWindow :=
  match w with
  | .node d cs => .node { d with req_rows := req } cs

/-- mutt_window_reflow_message_rows (src/unnamed/part_001:378-386), the
tree variant: overwrite the requested row count of the Message window
(the child at position msgIdx of its parent; position 2 of the root
after mutt_window_init) and reflow the whole parent subtree via
mutt_window_reflow.  The menu redraw-flag call touches state outside
this model. -/
def mutt_window_reflow_message_rows (optNoCurses : Bool) (mw_rows : Int) (msgIdx : Nat)
    (parent : MuttWindow) : MuttWindow :=
  match parent with
  | .node d cs => mutt_window_reflow optNoCurses (.node d (modifyAt (setReqRows · mw_rows) msgIdx cs))

/-- The visible members of a child list, in order. -/
def visChildren (cs : List MuttWindow) : List MuttWindow :=
  cs.filter (·.visible)

/-- Extent of a window along an axis. -/
def winExt (o : MuttWindowOrientation) (w : MuttWindow) : Int :=
  extentOf o w.data.state

/-- Offset of a window along an axis. -/
def winOff (o : MuttWindowOrientation) (w : MuttWindow) : Int :=
  offsetOf o w.data.state

/-- Sum of the extents of a list of windows along an axis. -/
def sumExt (o : MuttWindowOrientation) (cs : List MuttWindow) : Int :=
  (cs.map (winExt o)).sum

/-- No visible child of the list is a Fixed pane with an unlimited
request along the axis o (such a pane greedily absorbs the whole
remaining extent, spec 4.2 step 2, and is only meant for single-child
containers). -/
def noFixedUnlimitedB (o : MuttWindowOrientation) (cs : List MuttWindow) : Bool :=
  cs.all fun c =>
    !(c.visible && decide (c.size = .fixed) && decide (reqAlong o c.data = MUTT_WIN_SIZE_UNLIMITED))

mutual

/-- Decidable fitness check mirroring the engine's allocation: at every
pane reached through visible children, either no child is visible, or
the visible Fixed and Minimise demand fits into the pane's extent, no
visible child is Fixed-unlimited along the stacking axis, and a visible
Maximise child exists to absorb the remainder unless the demand already
fills the extent.  The argument st is the state the engine is about to
install in the pane. -/
def goodFitFrom (st : WindowState) : MuttWindow → Bool
  | .node d cs =>
    (visChildren cs).isEmpty
      || (noFixedUnlimitedB d.orient cs
          && decide (demandTotal d.orient cs ≤ extentOf d.orient st)
          && (decide (1 ≤ maximiseCount cs)
              || decide (demandTotal d.orient cs = extentOf d.orient st))
          && goodFitChildren d.orient st (extentOf d.orient st - demandTotal d.orient cs)
              (maximiseCount cs) 0 0 cs)

/-- Fitness check for a child list, walking exactly as reflowChildren
does. -/
def goodFitChildren (o : MuttWindowOrientation) (pst : WindowState) (r : Int) (k : Nat)
    (used : Int) (mi : Nat) : List MuttWindow → Bool
  | [] => true
  | c :: rest =>
    if c.visible then
      goodFitFrom (childState o pst (offsetOf o pst + used) (allocExt o pst r k used mi c)
          c.visible) c
        && goodFitChildren o pst r k (used + allocExt o pst r k used mi c) (mi + miStep c) rest
    else
      goodFitChildren o pst r k used mi rest

end

/-- The property P holds at a window and, recursively, at every
descendant reached through visible children only (invisible subtrees
are skipped by the reflow engine and carry stale geometry). -/
inductive AllVisNodes (P : MuttWindow → Prop) : MuttWindow → Prop where
  | node (d : MWinData) (cs : List MuttWindow) :
      P (.node d cs) →
      (∀ c ∈ cs, c.visible = true → AllVisNodes P c) →
      AllVisNodes P (.node d cs)

/-- The tiling property at one pane (spec 8): if it has visible
children, their stacking-axis extents sum exactly to its own extent,
and in visitation order each visible child's stacking-axis interval
ends before the next one begins, so no two visible siblings overlap. -/
def tiledNode (w : MuttWindow) : Prop :=
  (visChildren w.children ≠ [] →
    sumExt w.orient (visChildren w.children) = winExt w.orient w)
  ∧ List.Pairwise
      (fun a b => winOff w.orient a + winExt w.orient a ≤ winOff w.orient b)
      (visChildren w.children)

/-- The dialog-stack invariant (spec 3 and 4.3): at most one child of
the dialog container is visible, and a visible child can only be the
last one, i.e. the most recently pushed child still in the container
(dialog_push appends, dialog_pop removes the last).  An absent
container carries no children. -/
def dialogStackInv : Option (List MuttWindow) → Prop
  | none => True
  | some l =>
      (l.filter (·.visible)).length ≤ 1
      ∧ ∀ w ∈ l, w.visible = true → l.getLast? = some w

/-- Strengthened form of the dialog-stack invariant used for the
induction: every child before the last one is invisible. -/
def dropLastInvisible : Option (List MuttWindow) → Prop
  | none => True
  | some l => ∀ w ∈ l.dropLast, w.visible = false

/-- The static layout skeleton built by mutt_window_init
(src/unnamed/part_001:192-213): a Fixed root acquiring the Help, Dialog
container and Message windows as children (the diagnostic names the
source also sets are omitted from the model). -/
def mutt_window_init_tree : Option MuttWindow :=
  let root := mutt_window_new .vertical .fixed 0 0
  let help := mutt_window_new .vertical .fixed 1 MUTT_WIN_SIZE_UNLIMITED
  let dlg := mutt_window_new .vertical .maximise MUTT_WIN_SIZE_UNLIMITED MUTT_WIN_SIZE_UNLIMITED
  let msg := mutt_window_new .vertical .fixed 1 MUTT_WIN_SIZE_UNLIMITED
  mutt_window_add_child
    (mutt_window_add_child (mutt_window_add_child (some root) (some help)) (some dlg))
    (some msg)

/-- The init-time layout with a 24 by 80 terminal size stored in the
root, the input of the tree-variant message-rows counterexample. -/
def msgRowsInput : MuttWindow :=
  (mutt_window_init_tree.map (setStateSize · 24 80)).getD (mutt_window_new .vertical .fixed 0 0)

/-- A concrete well-fitting layout: a vertical 10 by 80 parent with two
Fixed one-row children around two Maximise children. -/
def fitLayout : MuttWindow :=
  .node { req_rows := 0, req_cols := 0,
          state := { visible := true, rows := 10, cols := 80,
                     row_offset := 0, col_offset := 0 },
          old := { visible := false, rows := 0, cols := 0,
                   row_offset := 0, col_offset := 0 },
          orient := .vertical, size := .fixed, hasParent := false }
    [ mutt_window_new .vertical .fixed 1 MUTT_WIN_SIZE_UNLIMITED,
      mutt_window_new .vertical .maximise MUTT_WIN_SIZE_UNLIMITED MUTT_WIN_SIZE_UNLIMITED,
      mutt_window_new .vertical .maximise MUTT_WIN_SIZE_UNLIMITED MUTT_WIN_SIZE_UNLIMITED,
      mutt_window_new .vertical .fixed 1 MUTT_WIN_SIZE_UNLIMITED ]

/-- An over-constrained layout: a vertical parent five rows tall whose
only visible child is a Fixed pane requesting ten rows. -/
def overfullLayout : MuttWindow :=
  .node { req_rows := 0, req_cols := 0,
          state := { visible := true, rows := 5, cols := 80,
                     row_offset := 0, col_offset := 0 },
          old := { visible := false, rows := 0, cols := 0,
                   row_offset := 0, col_offset := 0 },
          orient := .vertical, size := .fixed, hasParent := false }
    [ mutt_window_new .vertical .fixed 10 MUTT_WIN_SIZE_UNLIMITED ]

/-- A root window holding a stored terminal size of 24 by 80. -/
def sizedRoot : MuttWindow :=
  setStateSize (mutt_window_new .vertical .fixed 0 0) 24 80

namespace Flat

/-- A flat window with zeroed fields. -/
def zeroWin : FlatWin :=
  { rows := 0, cols := 0, row_offset := 0, col_offset := 0, visible := false }

/-- A flat layout state with zeroed windows. -/
def zeroState : FlatState :=
  { status := zeroWin, help := zeroWin, message := zeroWin,
    index := zeroWin, sidebar := zeroWin }

/-- A configuration whose sidebar is wider than the terminal: 25 by 10
screen, sidebar of width 20 on the left, help line off, status at the
bottom, curses active. -/
def wideSidebarCfg : FlatConfig :=
  { lines := 25, cols := 10, statusOnTop := false, help := false,
    useSidebar := true, sidebarVisible := true, sidebarOnRight := false,
    sidebarWidth := 20, optNoCurses := false }

end Flat

/-- Counterexample to claim C7 as stated: for width 3 and wrap -5 the
source returns the full width 3 (the margin branch requires
width > -wrap), not width minus the 5-column margin. -/
theorem wrap_cols_counterexample : mutt_window_wrap_cols 3 (-5) ≠ 3 - 5 := by decide

/-- Claim C7 (amended): a positive wrap caps the width at the wrap
value; a negative wrap reserves a right margin of that many columns
only when the width exceeds the margin, and otherwise returns the full
width unchanged; a zero wrap returns the full width. -/
theorem wrap_cols_spec (width wrap : Int) :
    (0 < wrap → mutt_window_wrap_cols width wrap = min wrap width)
    ∧ (wrap < 0 → -wrap < width → mutt_window_wrap_cols width wrap = width + wrap)
    ∧ (wrap < 0 → width ≤ -wrap → mutt_window_wrap_cols width wrap = width)
    ∧ (wrap = 0 → mutt_window_wrap_cols width wrap = width) := by
  unfold mutt_window_wrap_cols
  refine ⟨?_, ?_, ?_, ?_⟩ <;> intros
  · rw [min_def]; split_ifs <;> omega
  · split_ifs <;> omega
  · split_ifs <;> omega
  · split_ifs <;> omega

/-- Witness for wrap_cols_spec: each branch at a concrete input. -/
theorem wrap_cols_spec_witness :
    mutt_window_wrap_cols 80 40 = min 40 80
    ∧ mutt_window_wrap_cols 80 (-5) = 80 + (-5)
    ∧ mutt_window_wrap_cols 3 (-5) = 3
    ∧ mutt_window_wrap_cols 80 0 = 80 :=
  ⟨(wrap_cols_spec 80 40).1 (by decide),
   (wrap_cols_spec 80 (-5)).2.1 (by decide) (by decide),
   (wrap_cols_spec 3 (-5)).2.2.1 (by decide) (by decide),
   (wrap_cols_spec 80 0).2.2.2 rfl⟩

/-- Claim C10: a freshly constructed window is visible, stores the
given orientation, policy and requested sizes, has zeroed current and
previous geometry, no parent and no children. -/
theorem window_new_spec (o : MuttWindowOrientation) (sz : MuttWindowSize) (r c : Int) :
    (mutt_window_new o sz r c).visible = true
    ∧ (mutt_window_new o sz r c).orient = o
    ∧ (mutt_window_new o sz r c).size = sz
    ∧ (mutt_window_new o sz r c).data.req_rows = r
    ∧ (mutt_window_new o sz r c).data.req_cols = c
    ∧ (mutt_window_new o sz r c).data.state.geom = { rows := 0, cols := 0, row_offset := 0, col_offset := 0 }
    ∧ (mutt_window_new o sz r c).data.old.geom = { rows := 0, cols := 0, row_offset := 0, col_offset := 0 }
    ∧ (mutt_window_new o sz r c).data.hasParent = false
    ∧ (mutt_window_new o sz r c).children = [] :=
  ⟨rfl, rfl, rfl, rfl, rfl, rfl, rfl, rfl, rfl⟩

/-- Counterexample to claim C8 as stated: with a 25 by 10 terminal and
a visible 20-column sidebar, the flat reflow computes a negative column
extent for the Index window, the Maximise pane of the flat layout
(Flat.indexWindowSize); only its row extent is clamped. -/
theorem maximise_negative_cols_counterexample :
    (Flat.mutt_window_reflow Flat.wideSidebarCfg Flat.zeroState).index.cols < 0 := by decide

/-- Claim C8 (amended): neither flat reflow signals an error on an
over-constrained layout, and the stacking-axis row extent of the
Maximise Index pane is clamped to at least zero (when the reflow runs
at all, i.e. curses is active; the message-rows variant has no curses
guard); the column extent of the same pane, however, is reduced by the
sidebar width without clamping and can go negative. -/
theorem maximise_rows_clamped (cfg : Flat.FlatConfig) (s : Flat.FlatState) (mw : Int)
    (h : cfg.optNoCurses = false) :
    0 ≤ (Flat.mutt_window_reflow cfg s).index.rows
    ∧ 0 ≤ (Flat.mutt_window_reflow_message_rows cfg mw s).index.rows := by
  constructor
  · simp only [Flat.mutt_window_reflow, h, if_false, Bool.false_eq_true]
    split_ifs <;> simp [Flat.mutt_window_copy_size, le_max_right]
  · simp only [Flat.mutt_window_reflow_message_rows]
    simp [le_max_right]

/-- Witness for maximise_rows_clamped at the wide-sidebar
configuration. -/
theorem maximise_rows_clamped_witness :
    0 ≤ (Flat.mutt_window_reflow Flat.wideSidebarCfg Flat.zeroState).index.rows
    ∧ 0 ≤ (Flat.mutt_window_reflow_message_rows Flat.wideSidebarCfg 3 Flat.zeroState).index.rows :=
  maximise_rows_clamped Flat.wideSidebarCfg Flat.zeroState 3 rfl

/-- Counterexample to claim C9 as stated: mutt_window_move dereferences
its pane argument without a null check (src/unnamed/part_001:223-226),
so on a null pane the call faults (modelled as none) instead of being a
defined silent no-op. -/
theorem move_null_counterexample : mutt_window_move none 0 0 = none := rfl

/-- Claim C9 (amended): the guarded public operations (add_child, free,
dialog push and pop, the resize adapter) really are silent no-ops on a
null or absent argument, leaving the state unchanged; the cursor helper
mutt_window_move is the exception recorded by the counterexample. -/
theorem null_noop_spec :
    (∀ c, mutt_window_add_child none c = none)
    ∧ (∀ p, mutt_window_add_child (some p) none = some p)
    ∧ mutt_window_free none = none
    ∧ (∀ cont, dialog_push none cont = cont)
    ∧ (∀ d, dialog_push d none = none)
    ∧ dialog_pop none = (none, none)
    ∧ (∀ nc r c, mutt_window_set_root nc r c none = none) := by
  refine ⟨fun c => rfl, fun p => rfl, rfl, fun cont => ?_, fun d => ?_, rfl, fun nc r c => rfl⟩
  · cases cont <;> rfl
  · cases d <;> rfl

/-- Claim C6: feeding the resize adapter the size already stored in the
root performs no reflow and returns every pane, current and previous
geometry included, unchanged; a differing dimension stores the new size
and triggers a reflow of the root. -/
theorem set_root_noop_or_reflow (nc : Bool) (rows cols : Int) (root : MuttWindow) :
    (root.data.state.rows = rows ∧ root.data.state.cols = cols →
      mutt_window_set_root nc rows cols (some root) = some root)
    ∧ (root.data.state.rows ≠ rows ∨ root.data.state.cols ≠ cols →
      mutt_window_set_root nc rows cols (some root)
        = some (mutt_window_reflow nc (setStateSize root rows cols))) := by
  obtain ⟨d, cs⟩ := root
  constructor
  · rintro ⟨h1, h2⟩
    simp only [MuttWindow.data] at h1 h2
    subst h1
    subst h2
    show (if (!(d.state.rows == d.state.rows) || !(d.state.cols == d.state.cols)) = true
          then some (mutt_window_reflow nc
            (setStateSize (MuttWindow.node d cs) d.state.rows d.state.cols))
          else some (setStateSize (MuttWindow.node d cs) d.state.rows d.state.cols))
        = some (MuttWindow.node d cs)
    rw [if_neg (by simp)]
    rfl
  · intro h
    simp only [MuttWindow.data] at h
    have hch : (!(d.state.rows == rows) || !(d.state.cols == cols)) = true := by
      rcases h with h | h <;> simp [h]
    show (if (!(d.state.rows == rows) || !(d.state.cols == cols)) = true
          then some (mutt_window_reflow nc (setStateSize (MuttWindow.node d cs) rows cols))
          else some (setStateSize (MuttWindow.node d cs) rows cols))
        = some (mutt_window_reflow nc (setStateSize (MuttWindow.node d cs) rows cols))
    rw [if_pos hch]

/-- Witness for set_root_noop_or_reflow: both branches at the stored
24 by 80 root. -/
theorem set_root_noop_or_reflow_witness :
    mutt_window_set_root false 24 80 (some sizedRoot) = some sizedRoot
    ∧ mutt_window_set_root false 25 80 (some sizedRoot)
        = some (mutt_window_reflow false (setStateSize sizedRoot 25 80)) :=
  ⟨(set_root_noop_or_reflow false 24 80 sizedRoot).1 (by constructor <;> rfl),
   (set_root_noop_or_reflow false 25 80 sizedRoot).2 (Or.inl (by decide))⟩

/-- Strong induction over the window tree: to establish P everywhere
it suffices to establish it at each node assuming it for every child. -/
def MuttWindow.inductOn {P : MuttWindow → Prop}
    (h : ∀ d cs, (∀ c ∈ cs, P c) → P (.node d cs)) : ∀ t, P t
  | .node d cs => h d cs (fun c hc => MuttWindow.inductOn h c)
termination_by t => sizeOf t
decreasing_by
  have := List.sizeOf_lt_of_mem hc
  simp only [MuttWindow.node.sizeOf_spec]
  omega

theorem visible_setWinVisible (w : MuttWindow) (v : Bool) :
    (setWinVisible w v).visible = v := by
  cases w
  rfl

theorem treeGeoms_setWinVisible (w : MuttWindow) (v : Bool) :
    treeGeoms (setWinVisible w v) = treeGeoms w := by
  cases w
  rfl

theorem markLast_eq (f : α → α) (l : List α) :
    markLast f l = l.dropLast ++ l.getLast?.toList.map f := by
  induction l with
  | nil => rfl
  | cons a t ih =>
    cases t with
    | nil => rfl
    | cons b t2 =>
      show a :: markLast f (b :: t2) = (a :: b :: t2).dropLast ++ _
      rw [ih, List.getLast?_cons_cons]
      rfl

theorem map_markLast (f : α → α) (g : α → β) (h : ∀ a, g (f a) = g a) (l : List α) :
    (markLast f l).map g = l.map g := by
  induction l with
  | nil => rfl
  | cons a t ih =>
    cases t with
    | nil => show [g (f a)] = [g a]; rw [h]
    | cons b t2 =>
      show g a :: (markLast f (b :: t2)).map g = g a :: (b :: t2).map g
      rw [ih]

theorem markLast_dropLast (f : α → α) (l : List α) :
    (markLast f l).dropLast = l.dropLast := by
  cases hl : l.getLast? with
  | none =>
    have : l = [] := List.getLast?_eq_none_iff.mp hl
    subst this
    rfl
  | some x =>
    rw [markLast_eq, hl]
    show (l.dropLast ++ [f x]).dropLast = l.dropLast
    exact List.dropLast_concat

theorem dialog_pop_eq_of_getLast (m : List MuttWindow) (w : MuttWindow)
    (h : m.getLast? = some w) :
    dialog_pop (some m)
      = (some (markLast (setWinVisible · true) m.dropLast), some (setWinVisible w false)) := by
  show (match m.getLast? with
        | none => (some m, none)
        | some w2 =>
          (some (markLast (setWinVisible · true) m.dropLast), some (setWinVisible w2 false)))
      = _
  rw [h]

/-- Claim C4: pushing a dialog onto an existing container appends its
root, marked visible, after the previous children, of which only the
last changes, becoming invisible; and no pane anywhere in the container
or the dialog has its current or previous geometry touched (no
reflow). -/
theorem dialog_push_spec (l : List MuttWindow) (d : MuttWindow) :
    dialog_push (some d) (some l)
        = some (l.dropLast ++ l.getLast?.toList.map (setWinVisible · false)
            ++ [setWinVisible d true])
    ∧ ((dialog_push (some d) (some l)).getD []).map treeGeoms
        = (l ++ [d]).map treeGeoms := by
  constructor
  · show some (markLast (setWinVisible · false) l ++ [setWinVisible d true]) = _
    rw [markLast_eq, List.append_assoc]
  · show (markLast (setWinVisible · false) l ++ [setWinVisible d true]).map treeGeoms = _
    rw [List.map_append, map_markLast _ _ (fun a => treeGeoms_setWinVisible a false),
        List.map_append]
    show _ ++ [treeGeoms (setWinVisible d true)] = _ ++ [treeGeoms d]
    rw [treeGeoms_setWinVisible]

/-- Claim C5: popping a non-empty container detaches its last child,
marked invisible but not freed (it is handed back to the caller), keeps
every earlier child except that the new last one, if any, is marked
visible again; an absent or empty container is left unchanged. -/
theorem dialog_pop_spec (l : List MuttWindow) (d : MuttWindow) :
    (dialog_pop (some (l ++ [d]))).2 = some (setWinVisible d false)
    ∧ (dialog_pop (some (l ++ [d]))).1
        = some (l.dropLast ++ l.getLast?.toList.map (setWinVisible · true))
    ∧ dialog_pop none = (none, none)
    ∧ dialog_pop (some []) = (some [], none) := by
  have hred := dialog_pop_eq_of_getLast (l ++ [d]) d (List.getLast?_concat l)
  refine ⟨by rw [hred], ?_, rfl, rfl⟩
  rw [hred]
  show some (markLast (setWinVisible · true) (l ++ [d]).dropLast) = _
  rw [List.dropLast_concat, markLast_eq]

theorem push_preserves_inv (dlg : Option MuttWindow) (s : Option (List MuttWindow))
    (h : dropLastInvisible s) : dropLastInvisible (dialog_push dlg s) := by
  cases s with
  | none => cases dlg <;> exact trivial
  | some l =>
    cases dlg with
    | none => exact h
    | some d =>
      show ∀ w ∈ (markLast (setWinVisible · false) l ++ [setWinVisible d true]).dropLast,
        w.visible = false
      intro w hw
      rw [List.dropLast_concat, markLast_eq] at hw
      rcases List.mem_append.mp hw with h1 | h2
      · exact h w h1
      · rcases List.mem_map.mp h2 with ⟨x, hx, rfl⟩
        exact visible_setWinVisible x false

theorem pop_preserves_inv (s : Option (List MuttWindow))
    (h : dropLastInvisible s) : dropLastInvisible (dialog_pop s).1 := by
  cases s with
  | none => exact trivial
  | some l =>
    cases hl : l.getLast? with
    | none =>
      have : l = [] := List.getLast?_eq_none_iff.mp hl
      subst this
      exact h
    | some w =>
      rw [dialog_pop_eq_of_getLast l w hl]
      show ∀ x ∈ (markLast (setWinVisible · true) l.dropLast).dropLast, x.visible = false
      intro x hx
      rw [markLast_dropLast] at hx
      exact h x (List.Sublist.mem hx (List.dropLast_sublist l.dropLast))

theorem runOps_preserves_inv (ops : List DialogOp) :
    ∀ s, dropLastInvisible s → dropLastInvisible (runOps ops s) := by
  induction ops with
  | nil => intro s h; exact h
  | cons op rest ih =>
    intro s h
    cases op with
    | push d => exact ih _ (push_preserves_inv d s h)
    | pop => exact ih _ (pop_preserves_inv s h)

/-- Claim C2: starting from an empty dialog container, after any finite
sequence of push and pop operations at most one child of the container
is visible, and a visible child can only be the last one, i.e. the most
recently pushed child still in the container. -/
theorem dialog_stack_lifo_invariant (ops : List DialogOp) :
    dialogStackInv (runOps ops (some [])) := by
  have hinv : dropLastInvisible (runOps ops (some [])) := by
    refine runOps_preserves_inv ops (some []) ?_
    intro w hw
    exact absurd hw (List.not_mem_nil w)
  cases hout : runOps ops (some []) with
  | none => exact trivial
  | some l =>
    rw [hout] at hinv
    show (l.filter (·.visible)).length ≤ 1 ∧ ∀ w ∈ l, w.visible = true → l.getLast? = some w
    rcases l.eq_nil_or_concat' with rfl | ⟨m, b, rfl⟩
    · exact ⟨by simp, fun w hw => absurd hw (List.not_mem_nil w)⟩
    · have hm : ∀ w ∈ m, w.visible = false := by
        intro w hw
        refine hinv w ?_
        rw [List.dropLast_concat]
        exact hw
      constructor
      · rw [List.filter_append]
        have hmf : m.filter (·.visible) = [] := by
          rw [List.filter_eq_nil_iff]
          intro a ha
          simp [hm a ha]
        rw [hmf]
        cases hb : b.visible <;> simp [List.filter_cons, hb]
      · intro w hw hv
        rcases List.mem_append.mp hw with h1 | h2
        · rw [hm w h1] at hv
          exact Bool.noConfusion hv
        · have : w = b := by simpa using h2
          subst this
          exact List.getLast?_concat m

theorem natSizeMax_nonneg (o : MuttWindowOrientation) (cs : List MuttWindow) :
    0 ≤ natSizeMax o cs := by
  induction cs with
  | nil => exact le_refl 0
  | cons c rest ih =>
    show 0 ≤ max (if c.visible then natSize o c else 0) (natSizeMax o rest)
    exact le_trans ih (le_max_right _ _)

theorem natSizeSum_nonneg_of (o : MuttWindowOrientation) (cs : List MuttWindow)
    (h : ∀ c ∈ cs, 0 ≤ natSize o c) : 0 ≤ natSizeSum o cs := by
  induction cs with
  | nil => exact le_refl 0
  | cons c rest ih =>
    show 0 ≤ (if c.visible then natSize o c else 0) + natSizeSum o rest
    have h1 : 0 ≤ (if c.visible then natSize o c else 0) := by
      split_ifs
      · exact h c (List.mem_cons_self c rest)
      · exact le_refl 0
    have h2 : 0 ≤ natSizeSum o rest :=
      ih fun x hx => h x (List.mem_cons_of_mem c hx)
    omega

theorem natSize_nonneg (o : MuttWindowOrientation) : ∀ w, 0 ≤ natSize o w := by
  intro w
  induction w using MuttWindow.inductOn with
  | h d cs ih =>
    show 0 ≤ natSize o (.node d cs)
    simp only [natSize]
    cases d.size with
    | fixed =>
      dsimp only
      split_ifs
      · exact le_refl 0
      · exact le_max_right _ 0
    | maximise => exact le_refl 0
    | minimise =>
      dsimp only
      split_ifs
      · exact natSizeSum_nonneg_of o cs fun c hc => ih c hc
      · exact natSizeMax_nonneg o cs

theorem maxShare_nonneg (r : Int) (k i : Nat) : 0 ≤ maxShare r k i := by
  unfold maxShare
  split_ifs
  · exact le_refl 0
  · linarith [Int.natCast_nonneg (r.toNat / k)]
  · linarith [Int.natCast_nonneg (r.toNat / k)]

theorem shareTotal_nonpos (r : Int) (k : Nat) (hr : r ≤ 0) :
    ∀ km mi, shareTotal r k mi km = 0 := by
  intro km
  induction km with
  | zero => intro mi; rfl
  | succ n ih =>
    intro mi
    show maxShare r k mi + shareTotal r k (mi + 1) n = 0
    rw [ih (mi + 1)]
    unfold maxShare
    rw [if_pos (Or.inl hr)]
    rfl

theorem min_window_step_lt (rr mi n : Nat) (h : mi < rr) :
    (1 : Int) + ((min rr (mi + 1 + n) - min rr (mi + 1) : Nat) : Int)
      = ((min rr (mi + (n + 1)) - min rr mi : Nat) : Int) := by
  omega

theorem min_window_step_ge (rr mi n : Nat) (h : ¬ mi < rr) :
    ((min rr (mi + 1 + n) - min rr (mi + 1) : Nat) : Int)
      = ((min rr (mi + (n + 1)) - min rr mi : Nat) : Int) := by
  omega

theorem shareTotal_shift (r : Int) (k : Nat) (hr : 0 < r) (hk : 0 < k) :
    ∀ km mi, shareTotal r k mi km
      = km * ((r.toNat / k : Nat) : Int)
        + ((min (r.toNat % k) (mi + km) - min (r.toNat % k) mi : Nat) : Int) := by
  intro km
  induction km with
  | zero =>
    intro mi
    show (0 : Int) = _
    simp
  | succ n ih =>
    intro mi
    show maxShare r k mi + shareTotal r k (mi + 1) n = _
    rw [ih (mi + 1)]
    unfold maxShare
    rw [if_neg (by omega)]
    rw [Nat.cast_succ]
    by_cases hmi : mi < r.toNat % k
    · rw [if_pos hmi]
      linear_combination min_window_step_lt (r.toNat % k) mi n hmi
    · rw [if_neg hmi]
      linear_combination min_window_step_ge (r.toNat % k) mi n hmi

theorem shareTotal_full (r : Int) (k : Nat) (hk : 0 < k) :
    shareTotal r k 0 k = max r 0 := by
  rcases le_or_lt r 0 with hr | hr
  · rw [shareTotal_nonpos r k hr k 0, max_eq_right hr]
  · rw [shareTotal_shift r k hr hk k 0, max_eq_left (le_of_lt hr)]
    have h1 : ((k * (r.toNat / k) + r.toNat % k : Nat) : Int) = (r.toNat : Int) := by
      rw [Nat.div_add_mod]
    have h2 : r.toNat % k < k := Nat.mod_lt _ hk
    have h3 : (r.toNat : Int) = r := Int.toNat_of_nonneg (le_of_lt hr)
    have h4 : ∀ m : Nat, m < k → min m (0 + k) = m := by intro m hm; omega
    rw [h4 _ h2, Nat.min_zero]
    have h6 : r.toNat % k - 0 = r.toNat % k := rfl
    rw [h6]
    rw [Nat.cast_add, Nat.cast_mul] at h1
    linarith [h1, h3]

theorem allocExt_nonneg (o : MuttWindowOrientation) (pst : WindowState) (r : Int)
    (k : Nat) (used : Int) (mi : Nat) (c : MuttWindow) :
    0 ≤ allocExt o pst r k used mi c := by
  unfold allocExt
  cases hs : c.size with
  | fixed =>
    split_ifs
    · exact le_max_right _ 0
    · exact le_max_right _ 0
  | minimise => exact natSize_nonneg o c
  | maximise => exact maxShare_nonneg r k mi

theorem extentOf_childState (o : MuttWindowOrientation) (pst : WindowState)
    (off ext : Int) (v : Bool) : extentOf o (childState o pst off ext v) = ext := by
  cases o <;> rfl

theorem offsetOf_childState (o : MuttWindowOrientation) (pst : WindowState)
    (off ext : Int) (v : Bool) : offsetOf o (childState o pst off ext v) = off := by
  cases o <;> rfl

theorem visible_childState (o : MuttWindowOrientation) (pst : WindowState)
    (off ext : Int) (v : Bool) : (childState o pst off ext v).visible = v := by
  cases o <;> rfl

theorem visible_reflowInto (st : WindowState) (w : MuttWindow) :
    (reflowInto st w).visible = st.visible := by
  cases w
  rfl

theorem winExt_reflowInto (o : MuttWindowOrientation) (st : WindowState) (w : MuttWindow) :
    winExt o (reflowInto st w) = extentOf o st := by
  cases w
  rfl

theorem winOff_reflowInto (o : MuttWindowOrientation) (st : WindowState) (w : MuttWindow) :
    winOff o (reflowInto st w) = offsetOf o st := by
  cases w
  rfl

theorem copyOld_visible (c : MuttWindow) : (copyOld c).visible = c.visible := by
  cases c
  rfl

theorem visChildren_cons_true {c : MuttWindow} (h : c.visible = true)
    (rest : List MuttWindow) : visChildren (c :: rest) = c :: visChildren rest := by
  simp [visChildren, List.filter_cons, h]

theorem visChildren_cons_false {c : MuttWindow} (h : c.visible = false)
    (rest : List MuttWindow) : visChildren (c :: rest) = visChildren rest := by
  simp [visChildren, List.filter_cons, h]

theorem sumExt_cons (o : MuttWindowOrientation) (x : MuttWindow) (xs : List MuttWindow) :
    sumExt o (x :: xs) = winExt o x + sumExt o xs := by
  simp [sumExt]

theorem visChildren_reflowChildren_nil (o : MuttWindowOrientation) (pst : WindowState)
    (r : Int) (k : Nat) :
    ∀ (cs : List MuttWindow) (used : Int) (mi : Nat), visChildren cs = [] →
      visChildren (reflowChildren o pst r k used mi cs) = [] := by
  intro cs
  induction cs with
  | nil => intro used mi _; rfl
  | cons c rest ih =>
    intro used mi h
    have hcv : c.visible = false := by
      cases hv : c.visible
      · rfl
      · rw [visChildren_cons_true hv] at h
        exact absurd h (List.cons_ne_nil _ _)
    rw [visChildren_cons_false hcv] at h
    simp only [reflowChildren, hcv]
    rw [if_neg (by simp)]
    rw [visChildren_cons_false (by rw [copyOld_visible]; exact hcv)]
    exact ih used mi h

theorem shareTotal_succ (r : Int) (k mi km : Nat) :
    shareTotal r k mi (km + 1) = maxShare r k mi + shareTotal r k (mi + 1) km := rfl

theorem sumExt_reflowChildren (o : MuttWindowOrientation) (pst : WindowState)
    (r : Int) (k : Nat) :
    ∀ (cs : List MuttWindow) (used : Int) (mi : Nat),
      noFixedUnlimitedB o cs = true →
      sumExt o (visChildren (reflowChildren o pst r k used mi cs))
        = demandTotal o cs + shareTotal r k mi (maximiseCount cs) := by
  intro cs
  induction cs with
  | nil => intro used mi _; rfl
  | cons c rest ih =>
    intro used mi hnf
    have hnfr : noFixedUnlimitedB o rest = true := by
      revert hnf
      simp only [noFixedUnlimitedB, List.all_cons, Bool.and_eq_true]
      exact fun h => h.2
    cases hv : c.visible with
    | false =>
      simp only [reflowChildren, hv]
      rw [if_neg (by simp)]
      rw [visChildren_cons_false (by rw [copyOld_visible]; exact hv)]
      rw [ih used mi hnfr]
      simp [demandTotal, maximiseCount, hv]
    | true =>
      simp only [reflowChildren, hv]
      rw [if_pos trivial]
      rw [visChildren_cons_true
        (by rw [visible_reflowInto, visible_childState])]
      rw [sumExt_cons, winExt_reflowInto, extentOf_childState]
      rw [ih (used + allocExt o pst r k used mi c) (mi + miStep c) hnfr]
      cases hs : c.size with
      | fixed =>
        have hreq : ¬ reqAlong o c.data = MUTT_WIN_SIZE_UNLIMITED := by
          revert hnf
          simp only [noFixedUnlimitedB, List.all_cons, Bool.and_eq_true]
          intro h
          have := h.1
          rw [hv, hs] at this
          simpa using this
        simp only [allocExt, hs, demandTotal, demand, maximiseCount, miStep, hv]
        simp [hreq]
        omega
      | minimise =>
        simp only [allocExt, hs, demandTotal, demand, maximiseCount, miStep, hv]
        simp
        omega
      | maximise =>
        simp only [allocExt, hs, demandTotal, demand, maximiseCount, miStep, hv]
        simp
        rw [Nat.add_comm 1 (maximiseCount rest), shareTotal_succ]
        omega

theorem winOff_reflowChildren_lb (o : MuttWindowOrientation) (pst : WindowState)
    (r : Int) (k : Nat) :
    ∀ (cs : List MuttWindow) (used : Int) (mi : Nat) (w : MuttWindow),
      w ∈ reflowChildren o pst r k used mi cs → w.visible = true →
      offsetOf o pst + used ≤ winOff o w := by
  intro cs
  induction cs with
  | nil => intro used mi w hw _; exact absurd hw (List.not_mem_nil w)
  | cons c rest ih =>
    intro used mi w hw hv
    cases hcv : c.visible with
    | false =>
      simp only [reflowChildren, hcv] at hw
      rw [if_neg (by simp)] at hw
      rcases List.mem_cons.mp hw with rfl | hmem
      · rw [copyOld_visible, hcv] at hv
        exact Bool.noConfusion hv
      · exact ih used mi w hmem hv
    | true =>
      simp only [reflowChildren, hcv] at hw
      rw [if_pos trivial] at hw
      rcases List.mem_cons.mp hw with rfl | hmem
      · rw [winOff_reflowInto, offsetOf_childState]
      · have hle := ih (used + allocExt o pst r k used mi c) (mi + miStep c) w hmem hv
        have hnn := allocExt_nonneg o pst r k used mi c
        omega

theorem pairwise_reflowChildren (o : MuttWindowOrientation) (pst : WindowState)
    (r : Int) (k : Nat) :
    ∀ (cs : List MuttWindow) (used : Int) (mi : Nat),
      List.Pairwise (fun a b => winOff o a + winExt o a ≤ winOff o b)
        (visChildren (reflowChildren o pst r k used mi cs)) := by
  intro cs
  induction cs with
  | nil => intro used mi; exact List.Pairwise.nil
  | cons c rest ih =>
    intro used mi
    cases hcv : c.visible with
    | false =>
      simp only [reflowChildren, hcv]
      rw [if_neg (by simp)]
      rw [visChildren_cons_false (by rw [copyOld_visible]; exact hcv)]
      exact ih used mi
    | true =>
      simp only [reflowChildren, hcv]
      rw [if_pos trivial]
      rw [visChildren_cons_true (by rw [visible_reflowInto, visible_childState])]
      refine List.Pairwise.cons ?_ (ih _ _)
      intro b hb
      have hbmem := (List.mem_filter.mp hb).1
      have hbvis : b.visible = true := by
        have := (List.mem_filter.mp hb).2
        simpa using this
      have hlb := winOff_reflowChildren_lb o pst r k rest _ _ b hbmem hbvis
      rw [winOff_reflowInto, offsetOf_childState, winExt_reflowInto, extentOf_childState]
      omega

theorem allVis_reflowChildren (o : MuttWindowOrientation) (pst : WindowState)
    (r : Int) (k : Nat) :
    ∀ (cs : List MuttWindow) (used : Int) (mi : Nat),
      goodFitChildren o pst r k used mi cs = true →
      (∀ c ∈ cs, ∀ st, goodFitFrom st c = true → AllVisNodes tiledNode (reflowInto st c)) →
      ∀ w ∈ reflowChildren o pst r k used mi cs, w.visible = true →
        AllVisNodes tiledNode w := by
  intro cs
  induction cs with
  | nil => intro used mi _ _ w hw _; exact absurd hw (List.not_mem_nil w)
  | cons c rest ih =>
    intro used mi hgf hIH w hw hv
    cases hcv : c.visible with
    | false =>
      simp only [goodFitChildren, hcv] at hgf
      rw [if_neg (by simp)] at hgf
      simp only [reflowChildren, hcv] at hw
      rw [if_neg (by simp)] at hw
      rcases List.mem_cons.mp hw with rfl | hmem
      · rw [copyOld_visible, hcv] at hv
        exact Bool.noConfusion hv
      · exact ih used mi hgf (fun x hx => hIH x (List.mem_cons_of_mem c hx)) w hmem hv
    | true =>
      simp only [goodFitChildren, hcv] at hgf
      rw [if_pos trivial] at hgf
      rw [Bool.and_eq_true] at hgf
      simp only [reflowChildren, hcv] at hw
      rw [if_pos trivial] at hw
      rcases List.mem_cons.mp hw with rfl | hmem
      · exact hIH c (List.mem_cons_self c rest) _ hgf.1
      · exact ih _ _ hgf.2 (fun x hx => hIH x (List.mem_cons_of_mem c hx)) w hmem hv

theorem tiledNode_of_nil (w : MuttWindow) (h : visChildren w.children = []) :
    tiledNode w := by
  refine ⟨?_, ?_⟩
  · intro hne
    exact absurd h hne
  · rw [h]
    exact List.Pairwise.nil

theorem visChildren_nil_all {l : List MuttWindow} (h : visChildren l = []) :
    ∀ x ∈ l, x.visible = false := by
  intro x hx
  cases hv : x.visible
  · rfl
  · exfalso
    have hmem : x ∈ visChildren l := List.mem_filter.mpr ⟨hx, by simpa using hv⟩
    rw [h] at hmem
    exact absurd hmem (List.not_mem_nil x)

theorem reflowInto_tiled : ∀ (w : MuttWindow) (st : WindowState),
    goodFitFrom st w = true → AllVisNodes tiledNode (reflowInto st w) := by
  intro w
  induction w using MuttWindow.inductOn with
  | h d cs ih =>
    intro st hfit
    simp only [goodFitFrom] at hfit
    rw [Bool.or_eq_true] at hfit
    show AllVisNodes tiledNode
      (.node { d with old := d.state, state := st }
        (reflowChildren d.orient st (extentOf d.orient st - demandTotal d.orient cs)
          (maximiseCount cs) 0 0 cs))
    rcases hfit with hemp | hcond
    · have hnil : visChildren cs = [] := by
        rwa [List.isEmpty_iff] at hemp
      have hnil2 : visChildren
          (reflowChildren d.orient st (extentOf d.orient st - demandTotal d.orient cs)
            (maximiseCount cs) 0 0 cs) = [] :=
        visChildren_reflowChildren_nil _ _ _ _ cs 0 0 hnil
      refine AllVisNodes.node _ _ (tiledNode_of_nil _ hnil2) ?_
      intro c' hc' hv'
      rw [visChildren_nil_all hnil2 c' hc'] at hv'
      exact Bool.noConfusion hv'
    · rw [Bool.and_eq_true, Bool.and_eq_true, Bool.and_eq_true] at hcond
      obtain ⟨⟨⟨hnf, hle⟩, hor⟩, hgfc⟩ := hcond
      rw [decide_eq_true_eq] at hle
      refine AllVisNodes.node _ _ ⟨?_, ?_⟩ ?_
      · intro hne
        dsimp only [MuttWindow.children, MuttWindow.orient, MuttWindow.data, winExt] at hne ⊢
        rw [sumExt_reflowChildren _ _ _ _ cs 0 0 hnf]
        rw [Bool.or_eq_true, decide_eq_true_eq, decide_eq_true_eq] at hor
        rcases hor with hk | heq
        · rw [shareTotal_full _ _ hk]
          rw [max_eq_left (by omega)]
          omega
        · rw [shareTotal_nonpos (extentOf d.orient st - demandTotal d.orient cs)
            (maximiseCount cs) (by omega) (maximiseCount cs) 0]
          omega
      · dsimp only [MuttWindow.children, MuttWindow.orient, MuttWindow.data]
        exact pairwise_reflowChildren d.orient st _ _ cs 0 0
      · intro c' hc' hv'
        exact allVis_reflowChildren d.orient st _ _ cs 0 0 hgfc
          (fun x hx st2 h2 => ih x hx st2 h2) c' hc' hv'

/-- Claim C1 (amended; the engine window_reflow is modelled from spec
4.2 because reflow.c is absent from the sources): after a reflow of a
pane whose subtree fits — at every pane reached through visible
children, the visible Fixed and Minimise demand does not exceed the
pane's extent, no visible child is Fixed-unlimited along the stacking
axis, and a visible Maximise child absorbs the remainder unless the
demand already fills the extent — every such pane is exactly tiled by
its visible children along its stacking axis (invisible children
reserve no gap), and no two visible siblings' rectangles overlap.  The
no-overlap half needs no fitness hypothesis beyond the engine's
clamping. -/
theorem reflow_tiling (w : MuttWindow)
    (hfit : goodFitFrom w.data.state w = true) :
    AllVisNodes tiledNode (window_reflow w) :=
  reflowInto_tiled w w.data.state hfit

/-- Witness for reflow_tiling: the concrete well-fitting layout. -/
theorem reflow_tiling_witness :
    goodFitFrom fitLayout.data.state fitLayout = true
    ∧ AllVisNodes tiledNode (window_reflow fitLayout) :=
  ⟨by decide, reflow_tiling fitLayout (by decide)⟩

/-- Counterexample to claim C1 as stated: in the over-constrained
layout (a five-row parent with a visible Fixed child requesting ten
rows, and no invisible siblings, so no gaps are in play) the child
keeps its clamped request after reflow and the visible children's
extents sum to ten, not to the parent's extent five. -/
theorem reflow_tiling_counterexample :
    sumExt (window_reflow overfullLayout).orient
        (visChildren (window_reflow overfullLayout).children)
      ≠ winExt (window_reflow overfullLayout).orient (window_reflow overfullLayout) := by
  decide

/-- Counterexample to claim C3 as stated, on the tree variant
(src/unnamed/part_001:378-386, the engine modelled from spec 4.2): on
the init-time layout with a 24 by 80 root, requesting four message rows
changes the Help child's column extent (from 0 to the full width 80),
because the operation sets the Message window's requested rows and then
triggers a full structural reflow of the Message window's parent — the
root — rather than directly overwriting only row extents and
offsets. -/
theorem reflow_message_rows_full_reflow_counterexample :
    (mutt_window_reflow_message_rows false 4 2 msgRowsInput).children.map (winExt .horizontal)
      ≠ msgRowsInput.children.map (winExt .horizontal) := by
  decide

/-- Claim C3 (amended): the flat variant of the message-rows companion
(src/mutt_window.c:374-395) recomputes only the row-count override —
every window's cols, col_offset and visibility are untouched, the
Message rows and offsets follow the cumulative rule and the Index rows
are re-clamped — and performs no structural reflow; the tree variant
instead overwrites the Message window's requested rows and triggers a
full reflow of its parent subtree (see the counterexample). -/
theorem reflow_message_rows_scope (cfg : Flat.FlatConfig) (mw : Int) (s : Flat.FlatState) :
    Flat.colsView (Flat.mutt_window_reflow_message_rows cfg mw s) = Flat.colsView s
    ∧ (Flat.mutt_window_reflow_message_rows cfg mw s).message.rows = mw
    ∧ (Flat.mutt_window_reflow_message_rows cfg mw s).message.row_offset = cfg.lines - mw
    ∧ (Flat.mutt_window_reflow_message_rows cfg mw s).status.rows = s.status.rows
    ∧ (Flat.mutt_window_reflow_message_rows cfg mw s).status.row_offset
        = (if cfg.statusOnTop then 0 else cfg.lines - mw - 1)
    ∧ (Flat.mutt_window_reflow_message_rows cfg mw s).help.rows = s.help.rows
    ∧ (Flat.mutt_window_reflow_message_rows cfg mw s).index.rows
        = max (cfg.lines - s.status.rows - s.help.rows - mw) 0 := by
  refine ⟨?_, ?_, ?_, ?_, ?_, ?_, ?_⟩ <;>
    simp only [Flat.mutt_window_reflow_message_rows, Flat.colsView] <;>
    split_ifs <;> rfl
